import Mathlib

/-!
Verification of the Note_keeper record repository.

This file is a shallow embedding of the core of the Note_keeper program
(`core.py`, `storage.py`, `notekeeper.py`): the repository state
(`Repo.templates`, `Repo.ids`), the note-template value object
(`_Template` and its five subclasses), and the create / get / delete /
edit / save / load / generate-id operations, together with theorems about
them.

Modelling conventions:
- Python `int` note ids are `Int`; `len(str(id_))` is `pyStrLen`.
- Python exceptions are an explicit `Err` value in an `Except`; each
  constructor of `Err` is one concrete raise site (`StorageError`,
  `ValueError`, `TypeError`, `IndexError`, `NoteKeeperApplicationError`,
  `CoreError`).
- The YAML data file is modelled by its parsed contents:
  `Option (List Rec)`, where `none` is what `yaml.full_load` returns for a
  missing-then-created or empty file, and `some recs` is the parsed list of
  record dictionaries otherwise.
-/

namespace NK

/-- ID_DIGIT_LENGTH from core.py. -/
def ID_DIGIT_LENGTH : Nat := 10

/-- The five concrete subclasses of `_Template` in core.py, which double as
the category names.  Order of constructors is the definition order in
core.py, which is the order `_Template.__subclasses__()` returns and hence
the key-insertion order of `Repo.templates`. -/
inductive Cat where
  | limitedExam
  | surgery
  | hygieneExam
  | periodicExam
  | comprehensiveExam
deriving DecidableEq

/-- Python `Repo.subclass_names` order: the iteration order of the
`Repo.templates` dictionary. -/
def catList : List Cat :=
  [.limitedExam, .surgery, .hygieneExam, .periodicExam, .comprehensiveExam]

/-- Category name string, as produced by `cls.__name__`. -/
def Cat.name : Cat → String
  | .limitedExam => "LimitedExam"
  | .surgery => "Surgery"
  | .hygieneExam => "HygieneExam"
  | .periodicExam => "PeriodicExam"
  | .comprehensiveExam => "ComprehensiveExam"

/-- Lookup of a category by its name string (the dictionary
`Repo.note_classes` / the list `cls_names` used by the type checks). -/
def Cat.ofString (s : String) : Option Cat :=
  catList.find? (fun c => decide (c.name = s))

/-- A `_Template` object from core.py: an id and a note body.  The object's
class (its category) is the key of the `Repo.templates` entry holding it. -/
structure Note where
  id : Int
  note : String
deriving DecidableEq

/-- A record dictionary `{'_type': …, 'id': …, 'note': …}` as produced by
`_Template.to_dict` and consumed by `Repo._instantiate_templates`. -/
structure Rec where
  type : Cat
  id : Int
  note : String
deriving DecidableEq

/-- Errors, one constructor per concrete raise site reachable from the
modelled operations.  `badLength`, `duplicateId`, `notFound` and
`badExtension` are `StorageError`s; `valueError` is the `ValueError` that
`list.remove` raises on a missing element; `typeError` is the `TypeError`
raised by iterating `None`; `indexError` is the `IndexError` from
`file_path.split(".")[1]` on a dot-free path; `badType` is the
`NoteKeeperApplicationError` for an unknown category name; `coreError` is
the `CoreError` raised by `_Template.__eq__`. -/
inductive Err where
  | badLength
  | duplicateId
  | notFound
  | badExtension
  | valueError
  | typeError
  | indexError
  | badType
  | coreError
deriving DecidableEq

/-- Python `len(str(n))` for an integer `n`: number of decimal digits, plus
one for the minus sign when negative. -/
def pyStrLen (n : Int) : Nat :=
  (if n < 0 then 1 else 0) + (Nat.log 10 n.natAbs + 1)

/-- The repository state: `Repo.templates` (dictionary from category name to
the list of note objects of that category, modelled as a function out of
`Cat`) and `Repo.ids` (the list of ids in use). -/
structure Repo where
  templates : Cat → List Note
  ids : List Int

/-- A fresh `Repo()`: every category collection empty, no ids. -/
def emptyRepo : Repo := ⟨fun _ => [], []⟩

/-- Pointwise update of the templates dictionary at one category key. -/
def updateT (t : Cat → List Note) (c : Cat) (l : List Note) : Cat → List Note :=
  fun c' => if c' = c then l else t c'

/-- Repo._add_id: reject an id whose `len(str(id_))` is not
`ID_DIGIT_LENGTH`, then reject an id already in `Repo.ids`, else append it.
(The third check of the source, `type(id_) is not int`, cannot fire here
because ids are `Int` by type.) -/
def add_id (ids : List Int) (id_ : Int) : Except Err (List Int) :=
  if pyStrLen id_ ≠ ID_DIGIT_LENGTH then .error .badLength
  else if id_ ∈ ids then .error .duplicateId
  else .ok (ids ++ [id_])

/-- Repo._instantiate_templates: instantiate the note object for a record
dictionary, register its id through `_add_id`, and append the object to the
collection of its `_type`.  (The `note_classes[template["_type"]]` lookup is
total here because `Rec.type` is already a `Cat`; the `try/except` around
the append never fires for a registered category.) -/
def instantiate_templates (r : Repo) (t : Rec) : Except Err (Repo × Note) :=
  let note : Note := ⟨t.id, t.note⟩
  match add_id r.ids t.id with
  | .error e => .error e
  | .ok ids' =>
      .ok (⟨updateT r.templates t.type (r.templates t.type ++ [note]), ids'⟩, note)

/-- Repo._load_obj's loop body iterated over a record list:
`for template in templates: self._instantiate_templates(template)`. -/
def loadList : Repo → List Rec → Except Err Repo
  | r, [] => .ok r
  | r, t :: ts =>
      match instantiate_templates r t with
      | .error e => .error e
      | .ok (r', _) => loadList r' ts

/-- Repo._load_obj: iterating `None` (the parse result of an empty file)
raises `TypeError`; otherwise instantiate every record in order. -/
def load_obj (r : Repo) (templates : Option (List Rec)) : Except Err Repo :=
  match templates with
  | none => .error .typeError
  | some ts => loadList r ts

/-- Repo._get_from_yaml: the data file's parsed contents.  A missing file is
first created empty by `touch`, and `yaml.full_load` returns `None` (here
`none`) for an empty file, so the model is the identity on the
already-parsed contents. -/
def get_from_yaml (file : Option (List Rec)) : Option (List Rec) := file

/-- Repo.load: parse the data file and feed the result to `_load_obj`. -/
def load (r : Repo) (file : Option (List Rec)) : Except Err Repo :=
  load_obj r (get_from_yaml file)

/-- The `to_dict` image of a note stored under category `c`: the object's
class name becomes the `_type` field. -/
def Note.toRec (c : Cat) (n : Note) : Rec := ⟨c, n.id, n.note⟩

/-- The record list Repo.save builds: categories in dictionary order, each
collection in insertion order, every note via `to_dict`. -/
def saveRecords (r : Repo) : List Rec :=
  (catList.map (fun c => (r.templates c).map (Note.toRec c))).flatten

/-- Helper for `pySplit`: walk the character list, cutting at each
separator, accumulating the current piece in reverse. -/
def pySplitAux (sep : Char) : List Char → List Char → List String
  | [], acc => [String.mk acc.reverse]
  | ch :: rest, acc =>
      if ch = sep then String.mk acc.reverse :: pySplitAux sep rest []
      else pySplitAux sep rest (ch :: acc)

/-- Python `s.split(sep)` for a one-character separator: `"a.b".split(".")`
is `["a", "b"]`, `"abc".split(".")` is `["abc"]`, `"".split(".")` is
`[""]`. -/
def pySplit (s : String) (sep : Char) : List String := pySplitAux sep s.toList []

/-- Repo._save_to_yaml: reject the path unless the SECOND dot-separated
component, `file_path.split(".")[1]`, is `yaml` or `yml` (an `IndexError`
escapes when the path has no dot); otherwise write the records.  Writing is
modelled by returning the written record list. -/
def save_to_yaml (records : List Rec) (path : String) : Except Err (List Rec) :=
  match (pySplit path '.')[1]? with
  | none => .error .indexError
  | some ext =>
      if ext ≠ "yaml" ∧ ext ≠ "yml" then .error .badExtension
      else .ok records

/-- Repo.save: collect every stored note as a record dictionary and hand the
list to `_save_to_yaml` (the source then returns `True`). -/
def save (r : Repo) (path : String) : Except Err (List Rec) :=
  save_to_yaml (saveRecords r) path

/-- Python `list.remove`: drop the first occurrence, `ValueError` (`none`)
when the element is absent. -/
def pyListRemove (l : List Int) (a : Int) : Option (List Int) :=
  if a ∈ l then some (l.erase a) else none

/-- All stored notes in scan order: categories in dictionary order, each
collection in insertion order. -/
def allNotes (r : Repo) : List Note := (catList.map (fun c => r.templates c)).flatten

/-- The category holding the first note (in scan order) with the given id:
the `for name, notes in self.templates.items()` scan shared by
`Repo.delete_note`, `Repo.get_note` and `NoteKeeper.edit_note`. -/
def findNoteCat (r : Repo) (id_ : Int) : Option Cat :=
  catList.find? (fun c => (r.templates c).any (fun n => decide (n.id = id_)))

/-- Repo.delete_note for an integer id (the string branch of the source only
converts a numeric string to `int` first): scan the categories in dictionary
order for the first note with the given id, pop it from its collection,
remove the id from `Repo.ids`, return `True`; `StorageError` when no note
matches.  In the source the pop precedes `ids.remove`, so a `ValueError`
from the latter leaves the pop in place; no theorem below looks at the state
after that error, so the error case carries no state. -/
def delete_note (r : Repo) (id_ : Int) : Except Err (Repo × Bool) :=
  match findNoteCat r id_ with
  | none => .error .notFound
  | some c =>
      match pyListRemove r.ids id_ with
      | none => .error .valueError
      | some ids' =>
          .ok (⟨updateT r.templates c
                  ((r.templates c).eraseP (fun n => decide (n.id = id_))), ids'⟩, true)

/-- Repo.get_note for an integer id: first note in scan order with the given
id, `StorageError` when none matches. -/
def get_note (r : Repo) (id_ : Int) : Except Err Note :=
  match (allNotes r).find? (fun n => decide (n.id = id_)) with
  | some n => .ok n
  | none => .error .notFound

/-- Repo.get_notes_of_type: the collection of a category.  The
`type_ not in self.templates.keys()` check cannot fire for a `Cat`. -/
def get_notes_of_type (r : Repo) (c : Cat) : List Note := r.templates c

/-- Repo.edit_type: take the note's attributes via `to_dict`, delete the
original by id, overwrite `_type` with the desired category's name, and
re-instantiate.  The legality checks of the source (desired type among the
registered classes, note an instance of `_Template`) cannot fire for a `Cat`
and a `Note`. -/
def edit_type (r : Repo) (note : Note) (desired : Cat) : Except Err (Repo × Note) :=
  match delete_note r note.id with
  | .error e => .error e
  | .ok (r', _) => instantiate_templates r' ⟨desired, note.id, note.note⟩

/-- One pass of Repo.generate_id's `while` loop over a list of prepared
samples of `randint(10**9, 10**10 - 1)`.  The two flags persist across
iterations exactly as in the source: `is_long_enough` is never reset, and
`is_unique` is reset only when it is already `False` (the `id_ is False`
half of the reset test never holds for a fresh `randint` result).  The loop
exits with the current sample as soon as both flags hold; `none` means the
prepared samples ran out with the loop still spinning. -/
def generateIdAux (ids : List Int) : List Int → Bool → Bool → Option Int
  | [], _, _ => none
  | s :: rest, isUnique, isLong =>
      let isLong' := isLong || decide (pyStrLen s = ID_DIGIT_LENGTH)
      let isUnique' := isUnique || !(decide (s ∈ ids))
      if isUnique' && isLong' then some s else generateIdAux ids rest isUnique' isLong'

/-- Repo.generate_id, driven by a list of prepared random samples. -/
def generate_id (ids : List Int) (samples : List Int) : Option Int :=
  generateIdAux ids samples false false

/-- NoteKeeper.create_note with a caller-supplied id (the non-blank branch
of the source with `id_` given): check the requested type name against the
registered class names, build the note object, and append it to the matching
collection.  Faithful to the source, `Repo.ids` is NOT touched and no
uniqueness check is made on the supplied id. -/
def create_note (r : Repo) (type_ : String) (body : String) (id_ : Int) :
    Except Err (Repo × Note) :=
  match Cat.ofString type_ with
  | none => .error .badType
  | some c =>
      let note : Note := ⟨id_, body⟩
      .ok (⟨updateT r.templates c (r.templates c ++ [note]), r.ids⟩, note)

/-- Replace, in place, the body of the first note with the given id:
the effect of `original.note = edited_template['note']` on the list holding
`original`. -/
def setBodyFirst : List Note → Int → String → List Note
  | [], _, _ => []
  | n :: rest, id_, body =>
      if n.id = id_ then { n with note := body } :: rest
      else n :: setBodyFirst rest id_ body

/-- NoteKeeper.edit_note for an integer id and a registered category (the
id/type legality checks of the source only reject non-numeric strings and
unknown names): find the note by id; when the requested type equals the
found note's class, assign the new body to the found object in place; when
it differs, run `Repo.edit_type` and then assign the new body to the object
it appended (the last element of the target collection). -/
def edit_note (r : Repo) (edited : Rec) : Except Err (Repo × Note) :=
  match findNoteCat r edited.id with
  | none => .error .notFound
  | some c =>
      if edited.type = c then
        .ok (⟨updateT r.templates c (setBodyFirst (r.templates c) edited.id edited.note),
              r.ids⟩, ⟨edited.id, edited.note⟩)
      else
        match get_note r edited.id with
        | .error e => .error e
        | .ok orig =>
            match edit_type r orig edited.type with
            | .error e => .error e
            | .ok (r', n) =>
                let fixed : Note := { n with note := edited.note }
                .ok (⟨updateT r'.templates edited.type
                        ((r'.templates edited.type).dropLast ++ [fixed]), r'.ids⟩, fixed)

/-- The possible right-hand operands of `_Template.__eq__`: a dictionary
carrying an `id` key, a dictionary without one, another `_Template`
instance, or anything else. -/
inductive EqOther where
  | dictWithId (id : Int)
  | dictNoId
  | template (n : Note)
  | other

/-- Core's `_Template.__eq__`: compare ids for a dictionary with an `id` key
or another `_Template`; raise `CoreError` for a dictionary without `id` and
for any other kind of operand. -/
def templateEq (self : Note) : EqOther → Except Err Bool
  | .dictWithId i => .ok (decide (self.id = i))
  | .dictNoId => .error .coreError
  | .template n => .ok (decide (self.id = n.id))
  | .other => .error .coreError

/-- The ids of all stored records in scan order. -/
def recordIds (r : Repo) : List Int := (allNotes r).map (·.id)

/-- The Key Index invariant of the spec: `Repo.ids` holds exactly the ids of
the stored records (a permutation of them, hence the same set) and is
duplicate-free. -/
def keyIndexInv (r : Repo) : Prop :=
  r.ids.Perm (recordIds r) ∧ r.ids.Nodup

instance (r : Repo) : Decidable (keyIndexInv r) :=
  inferInstanceAs (Decidable (r.ids.Perm (recordIds r) ∧ r.ids.Nodup))

/-- The `(category, key, body)` triples stored in a repository. -/
def triples (r : Repo) : List (Cat × Int × String) :=
  (catList.map (fun c => (r.templates c).map (fun n => (c, n.id, n.note)))).flatten

lemma mem_catList (c : Cat) : c ∈ catList := by
  cases c <;> simp [catList]

lemma pyStrLen_of_range {n : Int} (h1 : (10 : Int) ^ 9 ≤ n) (h2 : n < 10 ^ 10) :
    pyStrLen n = 10 := by
  have h0 : (0 : Int) ≤ n := le_trans (by norm_num) h1
  obtain ⟨m, rfl⟩ := Int.eq_ofNat_of_zero_le h0
  have hm1 : 10 ^ 9 ≤ m := by exact_mod_cast h1
  have hm2 : m < 10 ^ 10 := by exact_mod_cast h2
  have hlog : Nat.log 10 m = 9 := Nat.log_eq_of_pow_le_of_lt_pow hm1 hm2
  have hneg : ¬ ((m : Int) < 0) := by omega
  simp [pyStrLen, hneg, hlog]

lemma pyStrLen_key : pyStrLen 1234567890 = 10 :=
  pyStrLen_of_range (by norm_num) (by norm_num)

lemma find?_catList_eq (p : Cat → Bool) (c : Cat) (hc : p c = true)
    (hu : ∀ c', p c' = true → c' = c) : catList.find? p = some c := by
  have hf : ∀ c', c' ≠ c → p c' = false := by
    intro c' h
    cases h' : p c' with
    | true => exact absurd (hu c' h') h
    | false => rfl
  cases c <;> simp_all [catList, List.find?]

lemma sum_catList_single (f : Cat → Nat) (c : Cat) (h1 : 1 ≤ f c)
    (h2 : (catList.map f).sum ≤ 1) :
    f c = 1 ∧ ∀ c', c' ≠ c → f c' = 0 := by
  cases c <;>
    · simp only [catList, List.map_cons, List.map_nil, List.sum_cons, List.sum_nil] at h2
      refine ⟨by omega, ?_⟩
      intro c' hne
      cases c' <;> simp_all <;> omega

lemma sum_catList_update (f g : Cat → Nat) (c : Cat) (hc : g c = f c + 1)
    (ho : ∀ c', c' ≠ c → g c' = f c') :
    (catList.map g).sum = (catList.map f).sum + 1 := by
  have h1 := fun h => ho Cat.limitedExam h
  have h2 := fun h => ho Cat.surgery h
  have h3 := fun h => ho Cat.hygieneExam h
  have h4 := fun h => ho Cat.periodicExam h
  have h5 := fun h => ho Cat.comprehensiveExam h
  cases c <;> simp_all [catList] <;> omega

lemma recordIds_eq (r : Repo) :
    recordIds r = (catList.map (fun c => (r.templates c).map (·.id))).flatten := by
  simp only [recordIds, allNotes, List.map_flatten, List.map_map]
  rfl

lemma count_recordIds (r : Repo) (k : Int) :
    (recordIds r).count k =
      (catList.map (fun c => ((r.templates c).map (·.id)).count k)).sum := by
  rw [recordIds_eq, List.count_flatten, List.map_map]
  rfl

lemma mem_recordIds_of_mem {r : Repo} {c : Cat} {n : Note}
    (h : n ∈ r.templates c) : n.id ∈ recordIds r := by
  rw [recordIds_eq]
  rw [List.mem_flatten]
  exact ⟨(r.templates c).map (·.id), List.mem_map_of_mem _ (mem_catList c),
    List.mem_map_of_mem _ h⟩

lemma uniq_facts {r : Repo} {c : Cat} {n : Note} (hmem : n ∈ r.templates c)
    (hnd : (recordIds r).Nodup) :
    ((r.templates c).map (·.id)).count n.id = 1 ∧
      ∀ c', c' ≠ c → ∀ m ∈ r.templates c', m.id ≠ n.id := by
  have hle : (recordIds r).count n.id ≤ 1 := List.nodup_iff_count_le_one.mp hnd _
  rw [count_recordIds] at hle
  have h1 : 1 ≤ ((r.templates c).map (·.id)).count n.id :=
    List.count_pos_iff.mpr (List.mem_map_of_mem _ hmem)
  obtain ⟨hc1, hc0⟩ :=
    sum_catList_single (fun c' => ((r.templates c').map (·.id)).count n.id) c h1 hle
  refine ⟨hc1, ?_⟩
  intro c' hne m hm hid
  have hmm : n.id ∈ (r.templates c').map (·.id) := by
    rw [← hid]
    exact List.mem_map_of_mem _ hm
  have : n.id ∉ (r.templates c').map (·.id) := List.count_eq_zero.mp (hc0 c' hne)
  exact this hmm

lemma findNoteCat_eq {r : Repo} {c : Cat} {n : Note} (hmem : n ∈ r.templates c)
    (hnd : (recordIds r).Nodup) : findNoteCat r n.id = some c := by
  obtain ⟨_, hc0⟩ := uniq_facts hmem hnd
  apply find?_catList_eq
  · rw [List.any_eq_true]
    exact ⟨n, hmem, by simp⟩
  · intro c' h
    rw [List.any_eq_true] at h
    obtain ⟨m, hm, hpm⟩ := h
    rw [decide_eq_true_iff] at hpm
    by_contra hne
    exact hc0 c' hne m hm hpm

lemma delete_note_ok {r : Repo} {c : Cat} {n : Note}
    (hmem : n ∈ r.templates c) (hnd : (recordIds r).Nodup) (hids : n.id ∈ r.ids) :
    delete_note r n.id =
      .ok (⟨updateT r.templates c
              ((r.templates c).eraseP (fun m => decide (m.id = n.id))),
            r.ids.erase n.id⟩, true) := by
  rw [delete_note, findNoteCat_eq hmem hnd]
  rw [pyListRemove, if_pos hids]

lemma count_map_id_eraseP (k : Int) (l : List Note) :
    ((l.eraseP (fun m => decide (m.id = k))).map (·.id)).count k
      = ((l.map (·.id)).count k) - 1 := by
  induction l with
  | nil => simp
  | cons a t ih =>
    by_cases h : a.id = k
    · rw [List.eraseP_cons_of_pos (by simp [h])]
      simp [List.count_cons, h]
    · rw [List.eraseP_cons_of_neg (by simp [h])]
      simp only [List.map_cons, List.count_cons, ih]
      have : ¬ (a.id == k) = true := by simp [h]
      simp [this]

lemma first_occurrence_split {l : List Note} {n : Note} (hmem : n ∈ l)
    (h1 : (l.map (·.id)).count n.id = 1) :
    ∃ pre post, l = pre ++ n :: post ∧ (∀ m ∈ pre, m.id ≠ n.id) ∧
      ∀ m ∈ post, m.id ≠ n.id := by
  obtain ⟨pre, post, rfl⟩ := List.append_of_mem hmem
  rw [List.map_append, List.count_append, List.map_cons, List.count_cons] at h1
  simp only [beq_self_eq_true, if_true] at h1
  have hpre : (pre.map (·.id)).count n.id = 0 := by omega
  have hpost : (post.map (·.id)).count n.id = 0 := by omega
  refine ⟨pre, post, rfl, ?_, ?_⟩
  · intro m hm hid
    have hmm : n.id ∈ pre.map (·.id) := by
      rw [← hid]
      exact List.mem_map_of_mem _ hm
    exact (List.count_eq_zero.mp hpre) hmm
  · intro m hm hid
    have hmm : n.id ∈ post.map (·.id) := by
      rw [← hid]
      exact List.mem_map_of_mem _ hm
    exact (List.count_eq_zero.mp hpost) hmm

lemma loadList_ok :
    ∀ (recs : List Rec) (r : Repo),
      (∀ t ∈ recs, pyStrLen t.id = ID_DIGIT_LENGTH) →
      (recs.map (·.id)).Nodup →
      (∀ t ∈ recs, t.id ∉ r.ids) →
      ∃ r', loadList r recs = .ok r' ∧
        r'.ids = r.ids ++ recs.map (·.id) ∧
        ∀ c, r'.templates c = r.templates c ++
          (recs.filter (fun t => decide (t.type = c))).map
            (fun t => (⟨t.id, t.note⟩ : Note)) := by
  intro recs
  induction recs with
  | nil =>
    intro r _ _ _
    exact ⟨r, rfl, by simp, fun c => by simp⟩
  | cons t ts ih =>
    intro r hlen hnd hfresh
    have h10 : pyStrLen t.id = ID_DIGIT_LENGTH := hlen t (List.mem_cons_self t ts)
    have hnm : t.id ∉ r.ids := hfresh t (List.mem_cons_self t ts)
    have hti : add_id r.ids t.id = .ok (r.ids ++ [t.id]) := by
      simp [add_id, h10, hnm]
    have hcons : (t.id ∉ ts.map (·.id)) ∧ (ts.map (·.id)).Nodup := by
      rw [List.map_cons, List.nodup_cons] at hnd
      exact hnd
    have hfresh' : ∀ t' ∈ ts, t'.id ∉ r.ids ++ [t.id] := by
      intro t' ht'
      rw [List.mem_append]
      rintro (h | h)
      · exact hfresh t' (List.mem_cons_of_mem _ ht') h
      · rw [List.mem_singleton] at h
        exact hcons.1 (h ▸ List.mem_map_of_mem _ ht')
    obtain ⟨r', hok, hids, htemp⟩ :=
      ih ⟨updateT r.templates t.type (r.templates t.type ++ [⟨t.id, t.note⟩]),
          r.ids ++ [t.id]⟩
        (fun t' ht' => hlen t' (List.mem_cons_of_mem _ ht')) hcons.2 hfresh'
    refine ⟨r', ?_, ?_, ?_⟩
    · simp only [loadList, instantiate_templates, hti]
      exact hok
    · rw [hids]
      simp
    · intro c
      rw [htemp c]
      dsimp only
      by_cases hc : t.type = c
      · have h1 : updateT r.templates t.type (r.templates t.type ++ [⟨t.id, t.note⟩]) c
            = r.templates c ++ [⟨t.id, t.note⟩] := by
          simp [updateT, hc]
        rw [h1, List.filter_cons_of_pos (by simp [hc]), List.map_cons, List.append_assoc,
          List.singleton_append]
      · have hc' : ¬ (c = t.type) := fun h => hc h.symm
        have h1 : updateT r.templates t.type (r.templates t.type ++ [⟨t.id, t.note⟩]) c
            = r.templates c := by
          simp [updateT, hc']
        rw [h1, List.filter_cons_of_neg (by simp [hc])]

lemma flatten_map_catList_single {α : Type} (g : Cat → List α) (c : Cat)
    (h : ∀ c', c' ≠ c → g c' = []) : (catList.map g).flatten = g c := by
  cases c <;> simp_all [catList]

lemma saveRecords_map_id (r : Repo) : (saveRecords r).map (·.id) = recordIds r := by
  rw [recordIds_eq, saveRecords, List.map_flatten, List.map_map]
  congr 1
  apply List.map_congr_left
  intro c _
  simp only [Function.comp, List.map_map]
  exact List.map_congr_left (fun a _ => rfl)

lemma filter_saveRecords (r : Repo) (c : Cat) :
    (saveRecords r).filter (fun t => decide (t.type = c))
      = (r.templates c).map (Note.toRec c) := by
  rw [saveRecords, List.filter_flatten, List.map_map]
  rw [flatten_map_catList_single
      ((List.filter fun t => decide (t.type = c)) ∘ fun c' => (r.templates c').map (Note.toRec c'))
      c ?_]
  · simp only [Function.comp, List.filter_map]
    have hp : ((fun t => decide (t.type = c)) ∘ Note.toRec c) = fun _ => true := by
      funext n
      simp [Note.toRec]
    rw [hp]
    simp
  · intro c' hne
    simp only [Function.comp, List.filter_map]
    have hp : ((fun t => decide (t.type = c)) ∘ Note.toRec c') = fun _ => false := by
      funext n
      simp [Note.toRec, hne]
    rw [hp]
    simp

lemma setBodyFirst_append (k : Int) (newB : String) (pre : List Note) :
    ∀ (post : List Note) (x : Note), x.id = k → (∀ m ∈ pre, m.id ≠ k) →
      setBodyFirst (pre ++ x :: post) k newB = pre ++ { x with note := newB } :: post := by
  induction pre with
  | nil =>
    intro post x hx _
    simp [setBodyFirst, hx]
  | cons a t ih =>
    intro post x hx hp
    have ha : a.id ≠ k := hp a (List.mem_cons_self a t)
    simp only [List.cons_append, setBodyFirst, if_neg ha]
    exact congrArg (a :: ·) (ih post x hx (fun m hm => hp m (List.mem_cons_of_mem _ hm)))

lemma generateIdAux_spec (ids : List Int) :
    ∀ (samples : List Int) (isLong : Bool) (id_ : Int),
      (∀ s ∈ samples, (10 : Int) ^ 9 ≤ s ∧ s ≤ 10 ^ 10 - 1) →
      generateIdAux ids samples false isLong = some id_ →
      ((10 : Int) ^ 9 ≤ id_ ∧ id_ ≤ 10 ^ 10 - 1) ∧ id_ ∉ ids := by
  intro samples
  induction samples with
  | nil =>
    intro isLong id_ _ h
    simp [generateIdAux] at h
  | cons s rest ih =>
    intro isLong id_ hrange h
    have hs := hrange s (List.mem_cons_self s rest)
    have hlen : pyStrLen s = 10 := pyStrLen_of_range hs.1 (by omega)
    by_cases hmem : s ∈ ids
    · simp [generateIdAux, hlen, ID_DIGIT_LENGTH, hmem] at h
      exact ih true id_ (fun s' hs' => hrange s' (List.mem_cons_of_mem _ hs')) h
    · simp [generateIdAux, hlen, ID_DIGIT_LENGTH, hmem] at h
      subst h
      exact ⟨hs, hmem⟩

/-- C1: the claimed Key Index invariant (`Repo.ids` equals the duplicate-free
set of ids of all stored records after every sequence of create, delete and
edit operations) is broken by the code at the very first create:
`NoteKeeper.create_note` appends the record to its category collection but
never adds its id to `Repo.ids`, so after one create on an empty repository
the stored record ids are `[1234567890]` while the id index is still empty,
and the invariant fails. -/
theorem create_note_violates_key_index :
    create_note emptyRepo "Surgery" "note" 1234567890 =
      .ok (⟨updateT emptyRepo.templates .surgery [⟨1234567890, "note"⟩], []⟩,
        ⟨1234567890, "note"⟩) ∧
    recordIds ⟨updateT emptyRepo.templates .surgery [⟨1234567890, "note"⟩], []⟩
      = [1234567890] ∧
    ¬ keyIndexInv ⟨updateT emptyRepo.templates .surgery [⟨1234567890, "note"⟩], []⟩ :=
  ⟨rfl, rfl, by decide⟩

/-- C2 counterexample: `create("Surgery", "note A", key=1234567890)` followed
by `create("Surgery", "note B", key=1234567890)` does NOT fail on the second
call; both calls return normally and the Surgery collection afterwards holds
two records with key 1234567890. -/
theorem create_note_duplicate_key_counterexample :
    ∃ r1 n1 r2 n2,
      create_note emptyRepo "Surgery" "note A" 1234567890 = .ok (r1, n1) ∧
      create_note r1 "Surgery" "note B" 1234567890 = .ok (r2, n2) ∧
      ((r2.templates .surgery).filter (fun n => decide (n.id = 1234567890))).length = 2 :=
  ⟨_, _, _, _, rfl, rfl, by decide⟩

/-- C2 (amended): for every registered category and caller-supplied key `k`,
even when a record with key `k` already exists, a second create call
supplying `k` succeeds without any error and adds a second record with key
`k` — no uniqueness re-check is performed on caller-supplied keys. -/
theorem create_note_no_duplicate_check (r : Repo) (t : String) (c : Cat)
    (hc : Cat.ofString t = some c) (body : String) (k : Int)
    (hdup : k ∈ recordIds r) :
    ∃ r' n, create_note r t body k = .ok (r', n) ∧ n.id = k ∧
      2 ≤ (recordIds r').count k := by
  refine ⟨⟨updateT r.templates c (r.templates c ++ [⟨k, body⟩]), r.ids⟩, ⟨k, body⟩,
    by simp [create_note, hc], rfl, ?_⟩
  have h1 : 1 ≤ (recordIds r).count k := List.count_pos_iff.mpr hdup
  rw [count_recordIds] at h1 ⊢
  have hsum := sum_catList_update
    (fun c' => ((r.templates c').map (·.id)).count k)
    (fun c' =>
      (((⟨updateT r.templates c (r.templates c ++ [⟨k, body⟩]), r.ids⟩ : Repo).templates c').map
        (·.id)).count k)
    c ?_ ?_
  · rw [hsum]
    omega
  · dsimp only
    simp [updateT]
  · intro c' hne
    dsimp only
    have hc' : ¬ (c' = c) := hne
    simp [updateT, hc']

/-- C2 (amended) witness: instantiating the amended claim at the repository
obtained from the first concrete create. -/
theorem create_note_no_duplicate_check_witness :
    Cat.ofString "Surgery" = some Cat.surgery ∧
    (1234567890 : Int) ∈
      recordIds ⟨updateT emptyRepo.templates .surgery [⟨1234567890, "note A"⟩], []⟩ ∧
    ∃ r' n,
      create_note ⟨updateT emptyRepo.templates .surgery [⟨1234567890, "note A"⟩], []⟩
          "Surgery" "note B" 1234567890 = .ok (r', n) ∧ n.id = 1234567890 ∧
      2 ≤ (recordIds r').count 1234567890 :=
  ⟨rfl, by decide,
    create_note_no_duplicate_check _ "Surgery" Cat.surgery rfl "note B" 1234567890 (by decide)⟩

/-- C3: the claim says `Repo.load` on a missing or empty data file raises no
error and leaves the repository empty; in the code `yaml.full_load` returns
`None` for such a file and `_load_obj` then iterates over `None`, raising an
uncaught `TypeError` — the very first run fails instead of starting empty. -/
theorem load_empty_file_raises_type_error :
    load emptyRepo (get_from_yaml none) = .error .typeError ∧
    load emptyRepo none = .error .typeError :=
  ⟨rfl, rfl⟩

/-- C9 counterexample: the path `"a.b.yaml"` has extension `.yaml` (its last
dot-separated component is `"yaml"`), yet `Repo.save` raises the
unsupported-format StorageError on it, because the check tests
`file_path.split(".")[1]` — the second component — rather than the
extension. -/
theorem save_yaml_extension_counterexample :
    (pySplit "a.b.yaml" '.').getLast? = some "yaml" ∧
    save emptyRepo "a.b.yaml" = .error .badExtension :=
  ⟨rfl, rfl⟩

/-- C9 (amended): for every path with at least two dot-separated components,
`Repo.save` raises the unsupported-format StorageError exactly when the
SECOND dot-separated component (`file_path.split(".")[1]`) is neither
`"yaml"` nor `"yml"`; a path without a dot raises an IndexError instead. -/
theorem save_checks_second_component (r : Repo) (path ext : String)
    (hext : (pySplit path '.')[1]? = some ext) :
    save r path = .error .badExtension ↔ (ext ≠ "yaml" ∧ ext ≠ "yml") := by
  rw [save, save_to_yaml, hext]
  by_cases h : ext ≠ "yaml" ∧ ext ≠ "yml"
  · simp [h]
  · simp [h]

/-- C9 (amended) witness: the default path `"records.yaml"` has `"yaml"` as
its second component and is accepted. -/
theorem save_checks_second_component_witness :
    (pySplit "records.yaml" '.')[1]? = some "yaml" ∧
    (save emptyRepo "records.yaml" = .error .badExtension ↔
      ("yaml" ≠ "yaml" ∧ "yaml" ≠ "yml")) :=
  ⟨rfl, save_checks_second_component emptyRepo "records.yaml" "yaml" rfl⟩

/-- C10: `_Template.__eq__` is total exactly on Records and id-bearing
dictionaries: comparing with another Record or with a dictionary carrying an
`id` key returns `True` precisely when the ids coincide (body and category
are ignored), while comparing with a dictionary lacking an `id` key or with
any non-dictionary non-Record value raises a CoreError instead of returning
`False`. -/
theorem template_eq_by_id_only :
    (∀ a b : Note, templateEq a (.template b) = .ok (decide (a.id = b.id))) ∧
    (∀ (a : Note) (i : Int), templateEq a (.dictWithId i) = .ok (decide (a.id = i))) ∧
    (∀ a : Note, templateEq a .dictNoId = .error .coreError) ∧
    (∀ a : Note, templateEq a .other = .error .coreError) :=
  ⟨fun _ _ => rfl, fun _ _ => rfl, fun _ => rfl, fun _ => rfl⟩

/-- C4: save/load round-trip — for every repository whose records carry
distinct ids of exactly ID_DIGIT_LENGTH digits, `Repo.save` succeeds on the
default path and `Repo.load` of the written records into a fresh empty
repository reproduces every category collection exactly, hence the same
`(category, key, body)` triples. -/
theorem save_load_roundtrip (r : Repo)
    (hlen : ∀ c, ∀ n ∈ r.templates c, pyStrLen n.id = ID_DIGIT_LENGTH)
    (hnd : (recordIds r).Nodup) :
    ∃ r', save r "records.yaml" = .ok (saveRecords r) ∧
      load emptyRepo (some (saveRecords r)) = .ok r' ∧
      (∀ c, r'.templates c = r.templates c) ∧
      triples r' = triples r := by
  have hlen' : ∀ t ∈ saveRecords r, pyStrLen t.id = ID_DIGIT_LENGTH := by
    intro t ht
    rw [saveRecords, List.mem_flatten] at ht
    obtain ⟨l, hl, hts⟩ := ht
    rw [List.mem_map] at hl
    obtain ⟨c, _, rfl⟩ := hl
    rw [List.mem_map] at hts
    obtain ⟨n, hn, rfl⟩ := hts
    exact hlen c n hn
  have hnd' : ((saveRecords r).map (·.id)).Nodup := by
    rw [saveRecords_map_id]
    exact hnd
  have hfresh : ∀ t ∈ saveRecords r, t.id ∉ emptyRepo.ids := by
    intro t _
    simp [emptyRepo]
  obtain ⟨r', hok, _, htemp⟩ := loadList_ok (saveRecords r) emptyRepo hlen' hnd' hfresh
  have htempl : ∀ c, r'.templates c = r.templates c := by
    intro c
    rw [htemp c, filter_saveRecords]
    have hmk : ∀ n : Note,
        ((fun t : Rec => (⟨t.id, t.note⟩ : Note)) ∘ Note.toRec c) n = n := fun _ => rfl
    simp only [emptyRepo, List.nil_append, List.map_map]
    rw [List.map_congr_left (fun a _ => hmk a)]
    simp
  refine ⟨r', rfl, hok, htempl, ?_⟩
  rw [triples, triples]
  congr 1
  apply List.map_congr_left
  intro c _
  rw [htempl c]

/-- C4 witness: the round-trip instantiated at a one-record repository. -/
theorem save_load_roundtrip_witness :
    (∀ c, ∀ n ∈ (⟨updateT emptyRepo.templates .surgery [⟨1234567890, "b"⟩],
        [1234567890]⟩ : Repo).templates c, pyStrLen n.id = ID_DIGIT_LENGTH) ∧
    (recordIds ⟨updateT emptyRepo.templates .surgery [⟨1234567890, "b"⟩],
        [1234567890]⟩).Nodup ∧
    ∃ r', save (⟨updateT emptyRepo.templates .surgery [⟨1234567890, "b"⟩],
          [1234567890]⟩ : Repo) "records.yaml" =
        .ok (saveRecords ⟨updateT emptyRepo.templates .surgery [⟨1234567890, "b"⟩],
          [1234567890]⟩) ∧
      load emptyRepo (some (saveRecords ⟨updateT emptyRepo.templates .surgery
          [⟨1234567890, "b"⟩], [1234567890]⟩)) = .ok r' ∧
      (∀ c, r'.templates c =
        (⟨updateT emptyRepo.templates .surgery [⟨1234567890, "b"⟩],
          [1234567890]⟩ : Repo).templates c) ∧
      triples r' = triples ⟨updateT emptyRepo.templates .surgery [⟨1234567890, "b"⟩],
        [1234567890]⟩ := by
  have h1 : ∀ c, ∀ n ∈ (⟨updateT emptyRepo.templates .surgery [⟨1234567890, "b"⟩],
      [1234567890]⟩ : Repo).templates c, pyStrLen n.id = ID_DIGIT_LENGTH := by
    intro c n hn
    cases c <;> simp [emptyRepo, updateT] at hn
    subst hn
    exact pyStrLen_key
  have h2 : (recordIds ⟨updateT emptyRepo.templates .surgery [⟨1234567890, "b"⟩],
      [1234567890]⟩).Nodup := by decide
  exact ⟨h1, h2, save_load_roundtrip _ h1 h2⟩

/-- C6: whenever `Repo.generate_id` returns (for any prepared sequence of
`randint(10**9, 10**10 - 1)` samples), the returned id lies in the closed
range `[10^(ID_DIGIT_LENGTH-1), 10^ID_DIGIT_LENGTH - 1]` — so it has exactly
ID_DIGIT_LENGTH digits — and is not in the in-use id list. -/
theorem generate_id_in_range_and_fresh (ids samples : List Int) (id_ : Int)
    (hrange : ∀ s ∈ samples, (10 : Int) ^ 9 ≤ s ∧ s ≤ 10 ^ 10 - 1)
    (hret : generate_id ids samples = some id_) :
    ((10 : Int) ^ (ID_DIGIT_LENGTH - 1) ≤ id_ ∧ id_ ≤ 10 ^ ID_DIGIT_LENGTH - 1) ∧
      id_ ∉ ids := by
  show ((10 : Int) ^ 9 ≤ id_ ∧ id_ ≤ 10 ^ 10 - 1) ∧ id_ ∉ ids
  rw [generate_id] at hret
  exact generateIdAux_spec ids samples false id_ hrange hret

/-- C6 witness: a single in-range sample not in use is returned. -/
theorem generate_id_in_range_and_fresh_witness :
    (∀ s ∈ ([1234567890] : List Int), (10 : Int) ^ 9 ≤ s ∧ s ≤ 10 ^ 10 - 1) ∧
    generate_id [9999999999] [1234567890] = some 1234567890 ∧
    (((10 : Int) ^ (ID_DIGIT_LENGTH - 1) ≤ 1234567890 ∧
        (1234567890 : Int) ≤ 10 ^ ID_DIGIT_LENGTH - 1) ∧
      (1234567890 : Int) ∉ ([9999999999] : List Int)) := by
  have h1 : ∀ s ∈ ([1234567890] : List Int), (10 : Int) ^ 9 ≤ s ∧ s ≤ 10 ^ 10 - 1 := by
    intro s hs
    rw [List.mem_singleton] at hs
    subst hs
    norm_num
  have h2 : generate_id [9999999999] [1234567890] = some 1234567890 := by
    simp [generate_id, generateIdAux, pyStrLen_key, ID_DIGIT_LENGTH]
  exact ⟨h1, h2, generate_id_in_range_and_fresh [9999999999] [1234567890] 1234567890 h1 h2⟩

/-- C5: `Repo.edit_type` on a stored record and a different target category
returns the same key and body, leaves no record with that key in the old
category's collection, and appends a record with the same key and body to
the new category's collection. -/
theorem edit_type_moves_record (r : Repo) (cOld cNew : Cat) (n : Note)
    (hmem : n ∈ r.templates cOld) (hinv : keyIndexInv r)
    (hlen : pyStrLen n.id = ID_DIGIT_LENGTH) (hne : cNew ≠ cOld) :
    ∃ r', edit_type r n cNew = .ok (r', n) ∧
      (∀ m ∈ get_notes_of_type r' cOld, m.id ≠ n.id) ∧
      get_notes_of_type r' cNew = get_notes_of_type r cNew ++ [n] := by
  obtain ⟨hperm, hndids⟩ := hinv
  have hndrec : (recordIds r).Nodup := hperm.nodup_iff.mp hndids
  have hids : n.id ∈ r.ids := hperm.mem_iff.mpr (mem_recordIds_of_mem hmem)
  have hdel := delete_note_ok hmem hndrec hids
  have hnotmem : n.id ∉ r.ids.erase n.id := hndids.not_mem_erase
  have hadd : add_id (r.ids.erase n.id) n.id = .ok (r.ids.erase n.id ++ [n.id]) := by
    simp [add_id, hlen, hnotmem]
  have hcount := (uniq_facts hmem hndrec).1
  have herased : ∀ m ∈ (r.templates cOld).eraseP (fun m => decide (m.id = n.id)),
      m.id ≠ n.id := by
    intro m hm hid
    have h0 := count_map_id_eraseP n.id (r.templates cOld)
    rw [hcount] at h0
    have hmm : m.id ∈ ((r.templates cOld).eraseP
        (fun m => decide (m.id = n.id))).map (fun x : Note => x.id) :=
      List.mem_map_of_mem _ hm
    rw [hid] at hmm
    exact (List.count_eq_zero.mp h0) hmm
  have hne' : ¬ (cOld = cNew) := fun h => hne h.symm
  refine ⟨⟨updateT (updateT r.templates cOld
        ((r.templates cOld).eraseP (fun m => decide (m.id = n.id)))) cNew
      ((updateT r.templates cOld
        ((r.templates cOld).eraseP (fun m => decide (m.id = n.id)))) cNew ++ [⟨n.id, n.note⟩]),
    r.ids.erase n.id ++ [n.id]⟩, ?_, ?_, ?_⟩
  · simp only [edit_type, hdel, instantiate_templates, hadd]
  · intro m hm
    simp only [get_notes_of_type, updateT, if_neg hne', if_pos rfl] at hm
    exact herased m hm
  · simp only [get_notes_of_type, updateT, if_pos rfl, if_neg (fun h : cNew = cOld => hne h)]
    rfl

/-- C5 witness: a one-record repository, moving the record from Surgery to
HygieneExam. -/
theorem edit_type_moves_record_witness :
    (⟨1234567890, "b"⟩ : Note) ∈
      (⟨updateT emptyRepo.templates .surgery [⟨1234567890, "b"⟩], [1234567890]⟩ : Repo).templates
        .surgery ∧
    keyIndexInv ⟨updateT emptyRepo.templates .surgery [⟨1234567890, "b"⟩], [1234567890]⟩ ∧
    pyStrLen (1234567890 : Int) = ID_DIGIT_LENGTH ∧
    Cat.hygieneExam ≠ Cat.surgery ∧
    ∃ r', edit_type ⟨updateT emptyRepo.templates .surgery [⟨1234567890, "b"⟩], [1234567890]⟩
        ⟨1234567890, "b"⟩ .hygieneExam = .ok (r', ⟨1234567890, "b"⟩) ∧
      (∀ m ∈ get_notes_of_type r' .surgery, m.id ≠ (1234567890 : Int)) ∧
      get_notes_of_type r' .hygieneExam =
        get_notes_of_type
          (⟨updateT emptyRepo.templates .surgery [⟨1234567890, "b"⟩], [1234567890]⟩ : Repo)
          .hygieneExam ++ [⟨1234567890, "b"⟩] := by
  have h1 : (⟨1234567890, "b"⟩ : Note) ∈
      (⟨updateT emptyRepo.templates .surgery [⟨1234567890, "b"⟩], [1234567890]⟩ : Repo).templates
        .surgery := by decide
  have h2 : keyIndexInv ⟨updateT emptyRepo.templates .surgery [⟨1234567890, "b"⟩],
      [1234567890]⟩ := by decide
  have h3 : pyStrLen (1234567890 : Int) = ID_DIGIT_LENGTH := pyStrLen_key
  have h4 : Cat.hygieneExam ≠ Cat.surgery := by decide
  exact ⟨h1, h2, h3, h4, edit_type_moves_record _ _ _ _ h1 h2 h3 h4⟩

/-- C7: deleting a stored record by its key succeeds with `True`, leaves no
record with that key in its category's collection, removes the key from the
id index, and a subsequent `Repo.get_note` on the key fails with the
not-found StorageError. -/
theorem delete_then_get_not_found (r : Repo) (k : Int) (c : Cat) (n : Note)
    (hmem : n ∈ r.templates c) (hid : n.id = k) (hinv : keyIndexInv r) :
    ∃ r', delete_note r k = .ok (r', true) ∧
      (∀ m ∈ get_notes_of_type r' c, m.id ≠ k) ∧
      k ∉ r'.ids ∧
      get_note r' k = .error .notFound := by
  subst hid
  obtain ⟨hperm, hndids⟩ := hinv
  have hndrec : (recordIds r).Nodup := hperm.nodup_iff.mp hndids
  have hids : n.id ∈ r.ids := hperm.mem_iff.mpr (mem_recordIds_of_mem hmem)
  have hdel := delete_note_ok hmem hndrec hids
  obtain ⟨hcount, huniq⟩ := uniq_facts hmem hndrec
  have herased : ∀ m ∈ (r.templates c).eraseP (fun m => decide (m.id = n.id)),
      m.id ≠ n.id := by
    intro m hm hidm
    have h0 := count_map_id_eraseP n.id (r.templates c)
    rw [hcount] at h0
    have hmm : m.id ∈ ((r.templates c).eraseP
        (fun m => decide (m.id = n.id))).map (fun x : Note => x.id) :=
      List.mem_map_of_mem _ hm
    rw [hidm] at hmm
    exact (List.count_eq_zero.mp h0) hmm
  refine ⟨_, hdel, ?_, ?_, ?_⟩
  · intro m hm
    simp only [get_notes_of_type, updateT, if_pos rfl] at hm
    exact herased m hm
  · exact hndids.not_mem_erase
  · rw [get_note]
    have hnone : (allNotes ⟨updateT r.templates c
          ((r.templates c).eraseP (fun m => decide (m.id = n.id))),
        r.ids.erase n.id⟩).find? (fun m => decide (m.id = n.id)) = none := by
      rw [List.find?_eq_none]
      intro x hx
      rw [allNotes, List.mem_flatten] at hx
      obtain ⟨l, hl, hxl⟩ := hx
      rw [List.mem_map] at hl
      obtain ⟨c'', _, rfl⟩ := hl
      by_cases hcc : c'' = c
      · subst hcc
        simp only [updateT, if_pos rfl] at hxl
        simp [herased x hxl]
      · simp only [updateT, if_neg hcc] at hxl
        simp [huniq c'' hcc x hxl]
    rw [hnone]

/-- C7 witness: delete-then-get on a one-record repository. -/
theorem delete_then_get_not_found_witness :
    (⟨1234567890, "b"⟩ : Note) ∈
      (⟨updateT emptyRepo.templates .surgery [⟨1234567890, "b"⟩], [1234567890]⟩ : Repo).templates
        .surgery ∧
    (⟨1234567890, "b"⟩ : Note).id = (1234567890 : Int) ∧
    keyIndexInv ⟨updateT emptyRepo.templates .surgery [⟨1234567890, "b"⟩], [1234567890]⟩ ∧
    ∃ r', delete_note ⟨updateT emptyRepo.templates .surgery [⟨1234567890, "b"⟩],
        [1234567890]⟩ 1234567890 = .ok (r', true) ∧
      (∀ m ∈ get_notes_of_type r' .surgery, m.id ≠ (1234567890 : Int)) ∧
      (1234567890 : Int) ∉ r'.ids ∧
      get_note r' 1234567890 = .error .notFound := by
  have h1 : (⟨1234567890, "b"⟩ : Note) ∈
      (⟨updateT emptyRepo.templates .surgery [⟨1234567890, "b"⟩], [1234567890]⟩ : Repo).templates
        .surgery := by decide
  have h2 : keyIndexInv ⟨updateT emptyRepo.templates .surgery [⟨1234567890, "b"⟩],
      [1234567890]⟩ := by decide
  exact ⟨h1, rfl, h2, delete_then_get_not_found _ 1234567890 _ _ h1 rfl h2⟩

/-- C8: `NoteKeeper.edit_note` with an unchanged category replaces only the
body of the targeted record: its key and category stay, the record keeps its
position in its category's collection, every other record in every category
is untouched, and the id index is unchanged. -/
theorem edit_note_same_type_frame (r : Repo) (c : Cat) (n : Note) (newBody : String)
    (hmem : n ∈ r.templates c) (hinv : keyIndexInv r) :
    ∃ r' pre post, edit_note r ⟨c, n.id, newBody⟩ = .ok (r', ⟨n.id, newBody⟩) ∧
      r.templates c = pre ++ n :: post ∧
      r'.templates c = pre ++ ⟨n.id, newBody⟩ :: post ∧
      (∀ c', c' ≠ c → r'.templates c' = r.templates c') ∧
      r'.ids = r.ids := by
  obtain ⟨hperm, hndids⟩ := hinv
  have hndrec : (recordIds r).Nodup := hperm.nodup_iff.mp hndids
  have hcount := (uniq_facts hmem hndrec).1
  obtain ⟨pre, post, hsplit, hpre, _⟩ := first_occurrence_split hmem hcount
  have hfind : findNoteCat r n.id = some c := findNoteCat_eq hmem hndrec
  have hset : setBodyFirst (r.templates c) n.id newBody = pre ++ ⟨n.id, newBody⟩ :: post := by
    rw [hsplit, setBodyFirst_append n.id newBody pre post n rfl hpre]
  refine ⟨⟨updateT r.templates c (setBodyFirst (r.templates c) n.id newBody), r.ids⟩,
    pre, post, ?_, hsplit, ?_, ?_, rfl⟩
  · simp [edit_note, hfind]
  · simp only [updateT, if_pos rfl]
    exact hset
  · intro c' hne
    simp only [updateT, if_neg hne]

/-- C8 witness: a same-category body edit on a two-record repository. -/
theorem edit_note_same_type_frame_witness :
    (⟨1234567890, "b"⟩ : Note) ∈
      (⟨updateT emptyRepo.templates .surgery [⟨1234567890, "b"⟩, ⟨9999999999, "x"⟩],
        [1234567890, 9999999999]⟩ : Repo).templates .surgery ∧
    keyIndexInv ⟨updateT emptyRepo.templates .surgery [⟨1234567890, "b"⟩, ⟨9999999999, "x"⟩],
        [1234567890, 9999999999]⟩ ∧
    ∃ r' pre post,
      edit_note ⟨updateT emptyRepo.templates .surgery [⟨1234567890, "b"⟩, ⟨9999999999, "x"⟩],
          [1234567890, 9999999999]⟩ ⟨.surgery, 1234567890, "c"⟩ =
        .ok (r', ⟨1234567890, "c"⟩) ∧
      (⟨updateT emptyRepo.templates .surgery [⟨1234567890, "b"⟩, ⟨9999999999, "x"⟩],
          [1234567890, 9999999999]⟩ : Repo).templates .surgery =
        pre ++ (⟨1234567890, "b"⟩ : Note) :: post ∧
      r'.templates .surgery = pre ++ (⟨1234567890, "c"⟩ : Note) :: post ∧
      (∀ c', c' ≠ Cat.surgery → r'.templates c' =
        (⟨updateT emptyRepo.templates .surgery [⟨1234567890, "b"⟩, ⟨9999999999, "x"⟩],
          [1234567890, 9999999999]⟩ : Repo).templates c') ∧
      r'.ids = [1234567890, 9999999999] := by
  have h1 : (⟨1234567890, "b"⟩ : Note) ∈
      (⟨updateT emptyRepo.templates .surgery [⟨1234567890, "b"⟩, ⟨9999999999, "x"⟩],
        [1234567890, 9999999999]⟩ : Repo).templates .surgery := by decide
  have h2 : keyIndexInv ⟨updateT emptyRepo.templates .surgery
      [⟨1234567890, "b"⟩, ⟨9999999999, "x"⟩], [1234567890, 9999999999]⟩ := by decide
  exact ⟨h1, h2, edit_note_same_type_frame _ _ _ "c" h1 h2⟩

end NK
